import Mathlib

/-!
Shallow embedding of the analytics derivation in the mindful-stash-save
repository: the `AdvancedAnalytics` component (day-of-week statistics,
streaks, goal predictions, month-over-month velocity, daily and weekly
series) and the `CircleVisualization` colour segments.

Dates are modelled at calendar-day granularity: a transaction date is the
rata-die day number (an `Int`), and the current time is a proleptic
Gregorian calendar date.  Amounts are rationals, standing for the exact
values of the JS number arithmetic used by the component.
-/

namespace MindfulStash

/-- A calendar date (proleptic Gregorian), standing for the JS `Date`
values used by the component at day granularity. -/
structure Date where
  year : Int
  month : Nat
  day : Nat
deriving DecidableEq, Repr

def isLeapYear (y : Int) : Bool :=
  (y % 4 == 0 && y % 100 != 0) || (y % 400 == 0)

def daysInMonth (y : Int) (m : Nat) : Nat :=
  if m = 2 then (if isLeapYear y then 29 else 28)
  else if m = 4 ∨ m = 6 ∨ m = 9 ∨ m = 11 then 30
  else 31

/-- Days in year `y` strictly before month `m`. -/
def daysBeforeMonth (y : Int) (m : Nat) : Nat :=
  (List.range (m - 1)).foldl (fun acc k => acc + daysInMonth y (k + 1)) 0

/-- Rata-die day number of a calendar date (0001-01-01 is day 1). -/
def toRataDie (d : Date) : Int :=
  365 * (d.year - 1) + (d.year - 1).ediv 4 - (d.year - 1).ediv 100
    + (d.year - 1).ediv 400 + (daysBeforeMonth d.year d.month : Int) + (d.day : Int)

/-- The date-fns `subMonths(now, 1)`: step back one calendar month,
clamping the day to the length of the target month. -/
def subOneMonth (d : Date) : Date :=
  let y := if d.month = 1 then d.year - 1 else d.year
  let m := if d.month = 1 then 12 else d.month - 1
  { year := y, month := m, day := min d.day (daysInMonth y m) }

/-- Rata-die day of `startOfMonth(d)`. -/
def startOfMonthRD (d : Date) : Int :=
  toRataDie { year := d.year, month := d.month, day := 1 }

/-- Rata-die day of `endOfMonth(d)` (the last calendar day of the month;
the JS value is the final millisecond of that day). -/
def endOfMonthRD (d : Date) : Int :=
  toRataDie { year := d.year, month := d.month, day := daysInMonth d.year d.month }

/-- The date-fns `eachDayOfInterval`: every calendar day from `s` to `e`
inclusive (as rata-die day numbers, `s ≤ e` in all uses here). -/
def eachDayOfInterval (s e : Int) : List Int :=
  (List.range ((e - s).toNat + 1)).map fun k => s + Int.ofNat k

/-- The date-fns `getDay`: day of week, Sunday = 0 … Saturday = 6.
Rata-die day 1 (0001-01-01) was a Monday, so this is the residue mod 7. -/
def getDayOf (d : Int) : Nat := (d % 7).toNat

inductive TxType where
  | saved
  | withdrawn
deriving DecidableEq, Repr

structure TransactionRecord where
  id : Nat
  type : TxType
  amount : ℚ
  date : Int
deriving DecidableEq, Repr

instance : Inhabited TransactionRecord :=
  ⟨{ id := 0, type := TxType.saved, amount := 0, date := 0 }⟩

structure Jar where
  id : Nat
  name : String
  target : ℚ
  saved : ℚ
  streak : Nat
  withdrawn : ℚ
  currency : Option String
  records : List TransactionRecord
deriving DecidableEq, Repr

/-- A transaction record tagged with its source jar name, as produced by
the `flatMap` at the top of the `analytics` memo. -/
structure TaggedTx where
  id : Nat
  type : TxType
  amount : ℚ
  date : Int
  jarName : String
deriving DecidableEq, Repr

def tagRecord (jar : Jar) (r : TransactionRecord) : TaggedTx :=
  { id := r.id, type := r.type, amount := r.amount, date := r.date, jarName := jar.name }

/-- All records across jars, tagged and sorted ascending by date
(`allTransactions` in the source; JS sort with a date comparator). -/
def allTransactions (jars : List Jar) : List TaggedTx :=
  (jars.flatMap fun jar => jar.records.map (tagRecord jar)).insertionSort
    (fun a b => a.date ≤ b.date)

/-- Sum of `type=saved` amounts with dates inside an inclusive interval
(the `filter`/`reduce` shape used for month and week totals). -/
def savedInInterval (txs : List TaggedTx) (lo hi : Int) : ℚ :=
  ((txs.filter fun t => decide (t.type = TxType.saved ∧ lo ≤ t.date ∧ t.date ≤ hi)).map
    (fun t => t.amount)).sum

/-- A jar's `type=saved` records in chronological order (the per-jar
`jarTransactions` of the predictions block). -/
def jarSavedSorted (jar : Jar) : List TransactionRecord :=
  (jar.records.filter fun r => decide (r.type = TxType.saved)).insertionSort
    (fun a b => a.date ≤ b.date)

/-- One entry of the `predictions` array before the final filter. -/
structure Prediction where
  jarName : String
  prediction : Option Int
  daysToGoal : Option Int
  avgPerDay : Option ℚ
deriving DecidableEq, Repr

/-- The per-jar body of the `predictions` map: requires ≥ 2 saved records,
takes the last 10, derives the average per-day rate with the `|| 1`
zero-guard, and emits a goal date only when `remaining > 0` and the rate is
positive (the JS truthiness test on `daysToGoal` is kept as the `dd = 0`
check). -/
def jarPrediction (now : Int) (jar : Jar) : Prediction :=
  let jarTransactions := jarSavedSorted jar
  if jarTransactions.length < 2 then
    { jarName := jar.name, prediction := none, daysToGoal := none, avgPerDay := none }
  else
    let recent := jarTransactions.drop (jarTransactions.length - 10)
    let total := (recent.map fun t => t.amount).sum
    let firstDate := (recent.getD 0 default).date
    let lastDate := (recent.getD (recent.length - 1) default).date
    let daysBetween := if lastDate - firstDate = 0 then 1 else lastDate - firstDate
    let avgPerDay := total / (daysBetween : ℚ)
    let remaining := jar.target - jar.saved
    let daysToGoal : Option Int :=
      if 0 < remaining ∧ 0 < avgPerDay then some ⌈remaining / avgPerDay⌉ else none
    let predictedDate : Option Int :=
      match daysToGoal with
      | some dd => if dd = 0 then none else some (now + dd)
      | none => none
    { jarName := jar.name, prediction := predictedDate, daysToGoal := daysToGoal,
      avgPerDay := some avgPerDay }

/-- The `predictions` list: per-jar predictions with the null entries
filtered away. -/
def predictionsOf (now : Int) (jars : List Jar) : List Prediction :=
  (jars.map (jarPrediction now)).filter fun p => decide (p.prediction ≠ none)

/-- One bucket of the day-of-week statistics. -/
structure DayStat where
  day : String
  amount : ℚ
  count : Nat
deriving DecidableEq, Repr

instance : Inhabited DayStat := ⟨{ day := "", amount := 0, count := 0 }⟩

def dayNames : List String :=
  ["Sunday", "Monday", "Tuesday", "Wednesday", "Thursday", "Friday", "Saturday"]

/-- The seven zeroed buckets the source builds with `Array(7).fill(0).map`. -/
def initDayStats : List DayStat :=
  (List.range 7).map fun i => { day := dayNames.getD i "", amount := 0, count := 0 }

/-- In-place update of one list position (the JS `stats[dayIndex] += …`). -/
def modifyIdx (f : α → α) : Nat → List α → List α
  | _, [] => []
  | 0, a :: as => f a :: as
  | n + 1, a :: as => a :: modifyIdx f n as

/-- The body of the `forEach` that accumulates one saved transaction into
its day-of-week bucket. -/
def applyTx (stats : List DayStat) (t : TaggedTx) : List DayStat :=
  modifyIdx (fun s => { s with amount := s.amount + t.amount, count := s.count + 1 })
    (getDayOf t.date) stats

def dayOfWeekStatsOf (txs : List TaggedTx) : List DayStat :=
  (txs.filter fun t => decide (t.type = TxType.saved)).foldl applyTx initDayStats

/-- JS `reduce` picking the maximal-amount bucket (accumulator starts at the
first bucket, i.e. Sunday). -/
def bestSavingDayOf (stats : List DayStat) : DayStat :=
  match stats with
  | [] => default
  | s :: rest => rest.foldl (fun best cur => if cur.amount > best.amount then cur else best) s

/-- JS `reduce` picking the minimal-amount bucket among candidates with
`count > 0` (accumulator starts at the first bucket, i.e. Sunday). -/
def worstSavingDayOf (stats : List DayStat) : DayStat :=
  match stats with
  | [] => default
  | s :: rest =>
    rest.foldl (fun worst cur =>
      if cur.amount < worst.amount ∧ cur.count > 0 then cur else worst) s

def weekendSavingsOf (txs : List TaggedTx) : ℚ :=
  ((txs.filter fun t =>
      decide (t.type = TxType.saved ∧ (getDayOf t.date = 0 ∨ getDayOf t.date = 6))).map
    (fun t => t.amount)).sum

def weekdaySavingsOf (txs : List TaggedTx) : ℚ :=
  ((txs.filter fun t =>
      decide (t.type = TxType.saved ∧ getDayOf t.date > 0 ∧ getDayOf t.date < 6)).map
    (fun t => t.amount)).sum

/-- Calendar days carrying at least one saved transaction. -/
def savingDates (txs : List TaggedTx) : List Int :=
  (txs.filter fun t => decide (t.type = TxType.saved)).map fun t => t.date

/-- Deduplication keeping first occurrences in encounter order (the JS
`new Set` spread). -/
def dedupFirst (l : List Int) : List Int :=
  l.foldl (fun acc d => if d ∈ acc then acc else acc ++ [d]) []

/-- The sorted distinct saving dates (`uniqueDates` in the source). -/
def uniqueDatesOf (txs : List TaggedTx) : List Int :=
  (dedupFirst (savingDates txs)).insertionSort (fun a b => a ≤ b)

/-- The backward walk of the current-streak loop: starting from the latest
unique date, count matches of `now - streakCount` until the first gap. -/
def csAux (now : Int) : Nat → List Int → Nat
  | _, [] => 0
  | k, d :: ds => if d = now - (k : Int) then 1 + csAux now (k + 1) ds else 0

def currentStreakOf (now : Int) (dates : List Int) : Nat :=
  csAux now 0 dates.reverse

/-- The longest-streak scan: `tempStreak` restarts at 1 on a gap, and the
maximum is tracked only when a consecutive pair is seen (so it starts at 0). -/
def lsAux : Int → Nat → Nat → List Int → Nat
  | _, _, longest, [] => longest
  | prev, temp, longest, d :: ds =>
    if d - prev = 1 then lsAux d (temp + 1) (max longest (temp + 1)) ds
    else lsAux d 1 longest ds

def longestStreakOf (dates : List Int) : Nat :=
  match dates with
  | [] => 0
  | d :: ds => lsAux d 1 0 ds

/-- One point of the daily series (the source stores a formatted label;
the day number stands for it here). -/
structure SeriesPoint where
  date : Int
  amount : ℚ
deriving DecidableEq, Repr

/-- Total saved on one calendar day. -/
def dailyTotal (txs : List TaggedTx) (d : Int) : ℚ :=
  ((txs.filter fun t => decide (t.type = TxType.saved ∧ t.date = d)).map
    (fun t => t.amount)).sum

/-- The `dailySavingsData` series over `eachDayOfInterval(subMonths(now,1), now)`. -/
def dailySavingsDataOf (txs : List TaggedTx) (now : Date) : List SeriesPoint :=
  (eachDayOfInterval (toRataDie (subOneMonth now)) (toRataDie now)).map fun d =>
    { date := d, amount := dailyTotal txs d }

structure JarSlice where
  name : String
  value : ℚ
  color : String
deriving DecidableEq, Repr

def chartColors : List String :=
  ["#8b5cf6", "#ec4899", "#3b82f6", "#10b981", "#f59e0b", "#ef4444"]

instance : BEq Jar := ⟨fun a b => decide (a = b)⟩

/-- The pie-chart distribution: truncated name, saved value, palette colour
by position (`jars.indexOf(jar) % 6`). -/
def jarDistributionOf (jars : List Jar) : List JarSlice :=
  jars.map fun jar =>
    { name := if jar.name.length > 15 then (jar.name.take 15) ++ "..." else jar.name,
      value := jar.saved,
      color := chartColors.getD ((jars.indexOf jar) % chartColors.length) "" }

structure WeekPoint where
  week : Nat
  amount : ℚ
deriving DecidableEq, Repr

/-- The four 7-day windows of `weeklyData` (loop counter i = 3, 2, 1, 0). -/
def weeklyDataOf (txs : List TaggedTx) (now : Int) : List WeekPoint :=
  ([3, 2, 1, 0] : List Nat).map fun i =>
    { week := 4 - i,
      amount := savedInInterval txs (now - 7 * (i : Int)) (now - 7 * (i : Int) + 6) }

/-- The derived-statistics bundle returned by the `analytics` memo. -/
structure DerivedAnalytics where
  velocityPercent : ℚ
  currentMonthSavings : ℚ
  lastMonthSavings : ℚ
  predictions : List Prediction
  dayOfWeekStats : List DayStat
  bestSavingDay : DayStat
  worstSavingDay : DayStat
  weekendSavings : ℚ
  weekdaySavings : ℚ
  currentStreak : Nat
  longestStreak : Nat
  dailySavingsData : List SeriesPoint
  jarDistribution : List JarSlice
  weeklyData : List WeekPoint
  totalSaved : ℚ
deriving Repr

/-- The `analytics` computation of the `AdvancedAnalytics` component. -/
def analytics (jars : List Jar) (now : Date) : DerivedAnalytics :=
  let nowRD := toRataDie now
  let lastMonthDate := subOneMonth now
  let txs := allTransactions jars
  let currentMonthSavings := savedInInterval txs (startOfMonthRD now) (endOfMonthRD now)
  let lastMonthSavings :=
    savedInInterval txs (startOfMonthRD lastMonthDate) (endOfMonthRD lastMonthDate)
  let velocityPercent : ℚ :=
    if lastMonthSavings > 0 then
      ((currentMonthSavings - lastMonthSavings) / lastMonthSavings) * 100
    else if currentMonthSavings > 0 then 100 else 0
  let stats := dayOfWeekStatsOf txs
  let uniq := uniqueDatesOf txs
  { velocityPercent := velocityPercent
    currentMonthSavings := currentMonthSavings
    lastMonthSavings := lastMonthSavings
    predictions := predictionsOf nowRD jars
    dayOfWeekStats := stats
    bestSavingDay := bestSavingDayOf stats
    worstSavingDay := worstSavingDayOf stats
    weekendSavings := weekendSavingsOf txs
    weekdaySavings := weekdaySavingsOf txs
    currentStreak := currentStreakOf nowRD uniq
    longestStreak := longestStreakOf uniq
    dailySavingsData := dailySavingsDataOf txs now
    jarDistribution := jarDistributionOf jars
    weeklyData := weeklyDataOf txs nowRD
    totalSaved := (jars.map fun jar => jar.saved).sum }

/-! ### CircleVisualization colour segments -/

def redProgress (p : ℚ) : ℚ := min p 25
def orangeProgress (p : ℚ) : ℚ := min (max (p - 25) 0) 25
def blueProgress (p : ℚ) : ℚ := min (max (p - 50) 0) 25
def greenProgress (p : ℚ) : ℚ := min (max (p - 75) 0) 25

/-! ### Spec-side definitions (for refinement claims)

These follow the wording of the specification rather than the code; the
claims compare them with the code-derived definitions above. -/

/-- Spec wording: sum of `type=saved` amounts of all jars whose dates lie
in the inclusive interval `[lo, hi]`, summed jar by jar. -/
def specMonthSaved (jars : List Jar) (lo hi : Int) : ℚ :=
  (jars.map fun j =>
    ((j.records.filter fun r =>
        decide (r.type = TxType.saved ∧ lo ≤ r.date ∧ r.date ≤ hi)).map
      (fun r => r.amount)).sum).sum

/-- Spec wording of the velocity formula: `(current - last) / last * 100`
when `last > 0`, else `100` if `current > 0`, else `0`. -/
def specVelocity (jars : List Jar) (now : Date) : ℚ :=
  let current := specMonthSaved jars (startOfMonthRD now) (endOfMonthRD now)
  let last := specMonthSaved jars (startOfMonthRD (subOneMonth now)) (endOfMonthRD (subOneMonth now))
  if last > 0 then ((current - last) / last) * 100
  else if current > 0 then 100 else 0

/-- Spec wording of the per-jar goal prediction: require at least 2 saved
records; take the last 10 in chronological order; average per-day rate is
`sum(amounts) / max(1, daysBetween(first, last))`; when
`remaining = target - saved > 0` and the rate is positive, the prediction
is `ceil(remaining / rate)` days from now; otherwise the jar is dropped. -/
def specPrediction (now : Int) (jar : Jar) : Option Prediction :=
  let recs := jarSavedSorted jar
  if recs.length < 2 then none
  else
    let recent := recs.drop (recs.length - 10)
    let total := (recent.map fun t => t.amount).sum
    let firstDate := (recent.getD 0 default).date
    let lastDate := (recent.getD (recent.length - 1) default).date
    let rate := total / ((max 1 (lastDate - firstDate) : Int) : ℚ)
    let remaining := jar.target - jar.saved
    if 0 < remaining ∧ 0 < rate then
      some { jarName := jar.name, prediction := some (now + ⌈remaining / rate⌉),
             daysToGoal := some ⌈remaining / rate⌉, avgPerDay := some rate }
    else none

/-- Total saved amount across all jars' records (the right side of the
weekend/weekday partition identity). -/
def totalSavedAmounts (jars : List Jar) : ℚ :=
  (jars.map fun j =>
    ((j.records.filter fun r => decide (r.type = TxType.saved)).map
      (fun r => r.amount)).sum).sum

/-- Total number of `type=saved` records across all jars. -/
def totalSavedCount (jars : List Jar) : Nat :=
  (jars.map fun j => (j.records.filter fun r => decide (r.type = TxType.saved)).length).sum

/-! ### Concrete inputs used by counterexamples and witnesses -/

/-- A Monday (day-of-week 1) shortly before the sample current dates. -/
def mondayRD : Int := toRataDie { year := 2026, month := 10, day := 12 }

/-- One jar whose only saved transaction falls on a Monday with a positive
amount. -/
def jarMonday : Jar :=
  { id := 1, name := "vacation", target := 100, saved := 5, streak := 0,
    withdrawn := 0, currency := none,
    records := [{ id := 1, type := TxType.saved, amount := 5, date := mondayRD }] }

def nowTuesday : Date := { year := 2026, month := 10, day := 13 }

def nowSunday : Date := { year := 2026, month := 10, day := 11 }

/-- One jar whose only saved transaction falls on the current day. -/
def jarToday : Jar :=
  { id := 1, name := "trip", target := 100, saved := 5, streak := 0,
    withdrawn := 0, currency := none,
    records := [{ id := 1, type := TxType.saved, amount := 5, date := toRataDie nowSunday }] }

/-- A jar with two saved records five days apart, half way to its target:
rate 4 per day, 50 remaining, 13 days to goal. -/
def jarHalf : Jar :=
  { id := 1, name := "goal", target := 100, saved := 50, streak := 0,
    withdrawn := 0, currency := none,
    records := [{ id := 1, type := TxType.saved, amount := 10, date := 739890 },
                { id := 2, type := TxType.saved, amount := 10, date := 739895 }] }

/-! ## Theorems -/

theorem analytics_predictions (jars : List Jar) (now : Date) :
    (analytics jars now).predictions = predictionsOf (toRataDie now) jars := rfl

theorem analytics_dayOfWeekStats (jars : List Jar) (now : Date) :
    (analytics jars now).dayOfWeekStats = dayOfWeekStatsOf (allTransactions jars) := rfl

theorem analytics_worstSavingDay (jars : List Jar) (now : Date) :
    (analytics jars now).worstSavingDay
      = worstSavingDayOf (dayOfWeekStatsOf (allTransactions jars)) := rfl

theorem analytics_currentStreak (jars : List Jar) (now : Date) :
    (analytics jars now).currentStreak
      = currentStreakOf (toRataDie now) (uniqueDatesOf (allTransactions jars)) := rfl

theorem analytics_longestStreak (jars : List Jar) (now : Date) :
    (analytics jars now).longestStreak
      = longestStreakOf (uniqueDatesOf (allTransactions jars)) := rfl

theorem analytics_dailySavingsData (jars : List Jar) (now : Date) :
    (analytics jars now).dailySavingsData
      = dailySavingsDataOf (allTransactions jars) now := rfl

theorem analytics_weeklyData (jars : List Jar) (now : Date) :
    (analytics jars now).weeklyData = weeklyDataOf (allTransactions jars) (toRataDie now) := rfl

theorem analytics_weekendSavings (jars : List Jar) (now : Date) :
    (analytics jars now).weekendSavings = weekendSavingsOf (allTransactions jars) := rfl

theorem analytics_weekdaySavings (jars : List Jar) (now : Date) :
    (analytics jars now).weekdaySavings = weekdaySavingsOf (allTransactions jars) := rfl

theorem analytics_currentMonthSavings (jars : List Jar) (now : Date) :
    (analytics jars now).currentMonthSavings
      = savedInInterval (allTransactions jars) (startOfMonthRD now) (endOfMonthRD now) := rfl

theorem analytics_lastMonthSavings (jars : List Jar) (now : Date) :
    (analytics jars now).lastMonthSavings
      = savedInInterval (allTransactions jars) (startOfMonthRD (subOneMonth now))
          (endOfMonthRD (subOneMonth now)) := rfl

/-- C3 counterexample: on 2026-03-15 the interval from one month ago
(2026-02-15) through today spans 29 calendar days, not 31, so the daily
series does not have 31 entries. -/
theorem C3_counterexample :
    ((analytics [] { year := 2026, month := 3, day := 15 }).dailySavingsData).length ≠ 31 := by
  decide

/-- C3 (amended): the daily savings series has one entry per calendar day
from one month ago (`subMonths(now, 1)`, day clamped) through today
inclusive — 31 entries exactly when that interval spans 30 days — and the
weekly savings series always has exactly 4 entries. -/
theorem C3_amended_series_lengths (jars : List Jar) (now : Date) :
    ((analytics jars now).dailySavingsData).length
        = (toRataDie now - toRataDie (subOneMonth now)).toNat + 1 ∧
      ((analytics jars now).weeklyData).length = 4 := by
  constructor
  · rw [analytics_dailySavingsData]
    simp only [dailySavingsDataOf, eachDayOfInterval, List.length_map, List.length_range]
  · rw [analytics_weeklyData]
    simp only [weeklyDataOf, List.length_map, List.length_cons, List.length_nil]

/-- C7: the empty jar collection yields an empty/zero-valued bundle —
velocity, month totals, weekend/weekday totals, streaks and the grand
total are 0, predictions and jar distribution are empty, and every daily
and weekly series entry has amount 0. -/
theorem C7_empty_bundle (now : Date) :
    (analytics [] now).velocityPercent = 0 ∧
      (analytics [] now).currentMonthSavings = 0 ∧
      (analytics [] now).lastMonthSavings = 0 ∧
      (analytics [] now).weekendSavings = 0 ∧
      (analytics [] now).weekdaySavings = 0 ∧
      (analytics [] now).currentStreak = 0 ∧
      (analytics [] now).longestStreak = 0 ∧
      (analytics [] now).totalSaved = 0 ∧
      (analytics [] now).predictions = [] ∧
      (analytics [] now).jarDistribution = [] ∧
      (∀ pt ∈ (analytics [] now).dailySavingsData, pt.amount = 0) ∧
      (∀ w ∈ (analytics [] now).weeklyData, w.amount = 0) := by
  refine ⟨rfl, rfl, rfl, rfl, rfl, rfl, rfl, rfl, rfl, rfl, ?_, ?_⟩
  · rw [analytics_dailySavingsData]
    intro pt hpt
    simp only [dailySavingsDataOf, List.mem_map] at hpt
    obtain ⟨d, _, rfl⟩ := hpt
    rfl
  · rw [analytics_weeklyData]
    intro w hw
    simp only [weeklyDataOf, List.mem_map] at hw
    obtain ⟨i, _, rfl⟩ := hw
    rfl

/-- C8: for progress `p` with `0 ≤ p ≤ 100` each colour segment lies in
`[0, 25]` and the four segments sum to `p`; for `p > 100` they sum to
100. -/
theorem C8_circle_segments :
    (∀ p : ℚ, 0 ≤ p → p ≤ 100 →
        (0 ≤ redProgress p ∧ redProgress p ≤ 25) ∧
          (0 ≤ orangeProgress p ∧ orangeProgress p ≤ 25) ∧
          (0 ≤ blueProgress p ∧ blueProgress p ≤ 25) ∧
          (0 ≤ greenProgress p ∧ greenProgress p ≤ 25) ∧
          redProgress p + orangeProgress p + blueProgress p + greenProgress p = p) ∧
      ∀ p : ℚ, 100 < p →
        redProgress p + orangeProgress p + blueProgress p + greenProgress p = 100 := by
  constructor
  · intro p h0 h100
    refine ⟨⟨le_min h0 (by norm_num), min_le_right _ _⟩,
      ⟨le_min (le_max_right _ _) (by norm_num), min_le_right _ _⟩,
      ⟨le_min (le_max_right _ _) (by norm_num), min_le_right _ _⟩,
      ⟨le_min (le_max_right _ _) (by norm_num), min_le_right _ _⟩, ?_⟩
    simp only [redProgress, orangeProgress, blueProgress, greenProgress]
    rcases le_total p 25 with h1 | h1
    · rw [min_eq_left h1, max_eq_right (by linarith : p - 25 ≤ 0),
        max_eq_right (by linarith : p - 50 ≤ 0), max_eq_right (by linarith : p - 75 ≤ 0)]
      norm_num
    rcases le_total p 50 with h2 | h2
    · rw [min_eq_right h1, max_eq_left (by linarith : (0 : ℚ) ≤ p - 25),
        min_eq_left (by linarith : p - 25 ≤ 25), max_eq_right (by linarith : p - 50 ≤ 0),
        max_eq_right (by linarith : p - 75 ≤ 0)]
      norm_num
    rcases le_total p 75 with h3 | h3
    · rw [min_eq_right h1, max_eq_left (by linarith : (0 : ℚ) ≤ p - 25),
        min_eq_right (by linarith : (25 : ℚ) ≤ p - 25),
        max_eq_left (by linarith : (0 : ℚ) ≤ p - 50),
        min_eq_left (by linarith : p - 50 ≤ 25), max_eq_right (by linarith : p - 75 ≤ 0)]
      norm_num
    · rw [min_eq_right h1, max_eq_left (by linarith : (0 : ℚ) ≤ p - 25),
        min_eq_right (by linarith : (25 : ℚ) ≤ p - 25),
        max_eq_left (by linarith : (0 : ℚ) ≤ p - 50),
        min_eq_right (by linarith : (25 : ℚ) ≤ p - 50),
        max_eq_left (by linarith : (0 : ℚ) ≤ p - 75),
        min_eq_left (by linarith : p - 75 ≤ 25)]
      ring
  · intro p h100
    simp only [redProgress, orangeProgress, blueProgress, greenProgress]
    rw [min_eq_right (by linarith : (25 : ℚ) ≤ p),
      max_eq_left (by linarith : (0 : ℚ) ≤ p - 25),
      min_eq_right (by linarith : (25 : ℚ) ≤ p - 25),
      max_eq_left (by linarith : (0 : ℚ) ≤ p - 50),
      min_eq_right (by linarith : (25 : ℚ) ≤ p - 50),
      max_eq_left (by linarith : (0 : ℚ) ≤ p - 75),
      min_eq_right (by linarith : (25 : ℚ) ≤ p - 75)]
    norm_num

/-- Witness for C8 at `p = 60` and `p = 150`. -/
theorem C8_circle_segments_witness :
    ((0 ≤ redProgress 60 ∧ redProgress 60 ≤ 25) ∧
        (0 ≤ orangeProgress 60 ∧ orangeProgress 60 ≤ 25) ∧
        (0 ≤ blueProgress 60 ∧ blueProgress 60 ≤ 25) ∧
        (0 ≤ greenProgress 60 ∧ greenProgress 60 ≤ 25) ∧
        redProgress 60 + orangeProgress 60 + blueProgress 60 + greenProgress 60 = 60) ∧
      redProgress 150 + orangeProgress 150 + blueProgress 150 + greenProgress 150 = 100 :=
  ⟨C8_circle_segments.1 60 (by norm_num) (by norm_num),
    C8_circle_segments.2 150 (by norm_num)⟩

set_option maxHeartbeats 1600000 in
/-- C1: evaluation of the code at the failing input — a single saved
transaction of positive amount on a Monday.  The worst-day reduce keeps
its initial accumulator, the Sunday bucket with count 0, even though the
Monday bucket has count 1. -/
theorem C1_code_eval :
    (analytics [jarMonday] nowTuesday).worstSavingDay
        = { day := "Sunday", amount := 0, count := 0 } ∧
      ((analytics [jarMonday] nowTuesday).dayOfWeekStats.getD 1 default).count = 1 := by
  have hstats : (analytics [jarMonday] nowTuesday).dayOfWeekStats
      = [{ day := "Sunday", amount := 0, count := 0 },
         { day := "Monday", amount := 0 + 5, count := 0 + 1 },
         { day := "Tuesday", amount := 0, count := 0 },
         { day := "Wednesday", amount := 0, count := 0 },
         { day := "Thursday", amount := 0, count := 0 },
         { day := "Friday", amount := 0, count := 0 },
         { day := "Saturday", amount := 0, count := 0 }] := rfl
  have hstats' : (analytics [jarMonday] nowTuesday).dayOfWeekStats
      = [{ day := "Sunday", amount := 0, count := 0 },
         { day := "Monday", amount := 5, count := 1 },
         { day := "Tuesday", amount := 0, count := 0 },
         { day := "Wednesday", amount := 0, count := 0 },
         { day := "Thursday", amount := 0, count := 0 },
         { day := "Friday", amount := 0, count := 0 },
         { day := "Saturday", amount := 0, count := 0 }] := by
    rw [hstats]
    norm_num
  constructor
  · rw [analytics_worstSavingDay, ← analytics_dayOfWeekStats, hstats']
    norm_num [worstSavingDayOf]
  · rw [hstats']
    rfl

set_option maxHeartbeats 1600000 in
/-- C2: evaluation of the code at the failing input — a single saved
transaction on the current day.  The current streak is 1 but the longest
streak stays 0, because the longest-streak scan only records runs of
length at least 2. -/
theorem C2_code_eval :
    (analytics [jarToday] nowSunday).currentStreak = 1 ∧
      (analytics [jarToday] nowSunday).longestStreak = 0 := by
  constructor <;> decide

theorem analytics_velocityPercent (jars : List Jar) (now : Date) :
    (analytics jars now).velocityPercent
      = (if savedInInterval (allTransactions jars) (startOfMonthRD (subOneMonth now))
              (endOfMonthRD (subOneMonth now)) > 0 then
           ((savedInInterval (allTransactions jars) (startOfMonthRD now) (endOfMonthRD now)
               - savedInInterval (allTransactions jars) (startOfMonthRD (subOneMonth now))
                   (endOfMonthRD (subOneMonth now)))
             / savedInInterval (allTransactions jars) (startOfMonthRD (subOneMonth now))
                 (endOfMonthRD (subOneMonth now))) * 100
         else if savedInInterval (allTransactions jars) (startOfMonthRD now)
              (endOfMonthRD now) > 0 then 100 else 0) := rfl

/-- Pushing a filtered amount sum through the flatten step of
`allTransactions`, before sorting. -/
theorem flatMap_filter_map_sum (jars : List Jar) (p : TaggedTx → Bool) :
    (((jars.flatMap fun j => j.records.map (tagRecord j)).filter p).map fun t => t.amount).sum
      = (jars.map fun j =>
          ((j.records.filter fun r => p (tagRecord j r)).map fun r => r.amount).sum).sum := by
  induction jars with
  | nil => rfl
  | cons j js ih =>
    simp only [List.flatMap_cons, List.filter_append, List.map_append, List.sum_append,
      List.map_cons, List.sum_cons, ih]
    congr 1
    rw [List.filter_map, List.map_map]
    rfl

/-- Pushing a filtered length through the flatten step of
`allTransactions`, before sorting. -/
theorem flatMap_filter_length (jars : List Jar) (p : TaggedTx → Bool) :
    ((jars.flatMap fun j => j.records.map (tagRecord j)).filter p).length
      = (jars.map fun j => (j.records.filter fun r => p (tagRecord j r)).length).sum := by
  induction jars with
  | nil => rfl
  | cons j js ih =>
    simp only [List.flatMap_cons, List.filter_append, List.length_append,
      List.map_cons, List.sum_cons, ih]
    congr 1
    rw [List.filter_map, List.length_map]
    rfl

/-- Sorting is a permutation, so a filtered amount sum over
`allTransactions` equals the per-jar sums over the raw records. -/
theorem allTransactions_filter_map_sum (jars : List Jar) (p : TaggedTx → Bool) :
    (((allTransactions jars).filter p).map fun t => t.amount).sum
      = (jars.map fun j =>
          ((j.records.filter fun r => p (tagRecord j r)).map fun r => r.amount).sum).sum := by
  have hperm := List.perm_insertionSort (fun a b : TaggedTx => a.date ≤ b.date)
      (jars.flatMap fun j => j.records.map (tagRecord j))
  exact (((hperm.filter p).map fun t => t.amount).sum_eq).trans (flatMap_filter_map_sum jars p)

/-- Sorting is a permutation, so a filtered count over `allTransactions`
equals the per-jar counts over the raw records. -/
theorem allTransactions_filter_length (jars : List Jar) (p : TaggedTx → Bool) :
    ((allTransactions jars).filter p).length
      = (jars.map fun j => (j.records.filter fun r => p (tagRecord j r)).length).sum := by
  have hperm := List.perm_insertionSort (fun a b : TaggedTx => a.date ≤ b.date)
      (jars.flatMap fun j => j.records.map (tagRecord j))
  exact ((hperm.filter p).length_eq).trans (flatMap_filter_length jars p)

theorem savedInInterval_eq_spec (jars : List Jar) (lo hi : Int) :
    savedInInterval (allTransactions jars) lo hi = specMonthSaved jars lo hi := by
  unfold savedInInterval specMonthSaved
  rw [allTransactions_filter_map_sum]
  rfl

/-- C4: the velocity equals the spec formula — `(current - last) / last *
100` when last month's saved total is positive, else 100 when the current
month's is positive, else 0 — with month totals summing saved amounts
whose dates lie inclusively between the first and last day of the month. -/
theorem C4_velocity_spec (jars : List Jar) (now : Date) :
    (analytics jars now).velocityPercent = specVelocity jars now ∧
      (analytics jars now).currentMonthSavings
        = specMonthSaved jars (startOfMonthRD now) (endOfMonthRD now) ∧
      (analytics jars now).lastMonthSavings
        = specMonthSaved jars (startOfMonthRD (subOneMonth now))
            (endOfMonthRD (subOneMonth now)) := by
  refine ⟨?_, savedInInterval_eq_spec jars _ _, savedInInterval_eq_spec jars _ _⟩
  rw [analytics_velocityPercent]
  simp only [savedInInterval_eq_spec]
  rfl

theorem getDayOf_lt (d : Int) : getDayOf d < 7 := by
  unfold getDayOf
  have h1 : 0 ≤ d % 7 := Int.emod_nonneg d (by norm_num)
  have h2 : d % 7 < 7 := Int.emod_lt_of_pos d (by norm_num)
  omega

/-- Every saved transaction lands in exactly one of the weekend/weekday
filters, so the two totals partition the saved total. -/
theorem weekend_weekday_partition (txs : List TaggedTx) :
    weekendSavingsOf txs + weekdaySavingsOf txs
      = ((txs.filter fun t => decide (t.type = TxType.saved)).map fun t => t.amount).sum := by
  induction txs with
  | nil => simp [weekendSavingsOf, weekdaySavingsOf]
  | cons t ts ih =>
    simp only [weekendSavingsOf, weekdaySavingsOf] at ih ⊢
    by_cases hs : t.type = TxType.saved
    · have h7 := getDayOf_lt t.date
      have hcase : getDayOf t.date = 0 ∨ getDayOf t.date = 6
          ∨ (0 < getDayOf t.date ∧ getDayOf t.date < 6) := by omega
      rcases hcase with h | h | h
      · have hc1 : decide (t.type = TxType.saved
            ∧ (getDayOf t.date = 0 ∨ getDayOf t.date = 6)) = true := by
          simp [hs, h]
        have hc2 : decide (t.type = TxType.saved
            ∧ getDayOf t.date > 0 ∧ getDayOf t.date < 6) = false := by
          simp [hs, h]
        have hcs : decide (t.type = TxType.saved) = true := by simp [hs]
        rw [List.filter_cons, List.filter_cons, List.filter_cons, hc1, hc2, hcs,
          if_pos rfl, if_pos rfl, if_neg (by simp)]
        simp only [List.map_cons, List.sum_cons]
        linarith [ih]
      · have hc1 : decide (t.type = TxType.saved
            ∧ (getDayOf t.date = 0 ∨ getDayOf t.date = 6)) = true := by
          simp [hs, h]
        have hc2 : decide (t.type = TxType.saved
            ∧ getDayOf t.date > 0 ∧ getDayOf t.date < 6) = false := by
          simp [hs, h]
        have hcs : decide (t.type = TxType.saved) = true := by simp [hs]
        rw [List.filter_cons, List.filter_cons, List.filter_cons, hc1, hc2, hcs,
          if_pos rfl, if_pos rfl, if_neg (by simp)]
        simp only [List.map_cons, List.sum_cons]
        linarith [ih]
      · have hc1 : decide (t.type = TxType.saved
            ∧ (getDayOf t.date = 0 ∨ getDayOf t.date = 6)) = false := by
          simp [hs]
          omega
        have hc2 : decide (t.type = TxType.saved
            ∧ getDayOf t.date > 0 ∧ getDayOf t.date < 6) = true := by
          simp [hs, h.1, h.2]
        have hcs : decide (t.type = TxType.saved) = true := by simp [hs]
        rw [List.filter_cons, List.filter_cons, List.filter_cons, hc1, hc2, hcs,
          if_pos rfl, if_pos rfl, if_neg (by simp)]
        simp only [List.map_cons, List.sum_cons]
        linarith [ih]
    · have hc1 : decide (t.type = TxType.saved
          ∧ (getDayOf t.date = 0 ∨ getDayOf t.date = 6)) = false := by simp [hs]
      have hc2 : decide (t.type = TxType.saved
          ∧ getDayOf t.date > 0 ∧ getDayOf t.date < 6) = false := by simp [hs]
      have hcs : decide (t.type = TxType.saved) = false := by simp [hs]
      rw [List.filter_cons, List.filter_cons, List.filter_cons, hc1, hc2, hcs,
        if_neg (by simp), if_neg (by simp), if_neg (by simp)]
      linarith [ih]

/-- C6: the weekend saved total plus the weekday saved total equals the
total saved amount over all jars' records. -/
theorem C6_weekend_weekday_total (jars : List Jar) (now : Date) :
    (analytics jars now).weekendSavings + (analytics jars now).weekdaySavings
      = totalSavedAmounts jars := by
  rw [analytics_weekendSavings, analytics_weekdaySavings, weekend_weekday_partition,
    allTransactions_filter_map_sum]
  rfl

theorem modifyIdx_length (f : α → α) (n : Nat) (l : List α) :
    (modifyIdx f n l).length = l.length := by
  induction l generalizing n with
  | nil => cases n <;> rfl
  | cons a as ih => cases n with
    | zero => rfl
    | succ m => simp [modifyIdx, ih]

theorem modifyIdx_map_proj {α β : Type} (f : α → α) (g : α → β) (h : ∀ a, g (f a) = g a)
    (n : Nat) (l : List α) : (modifyIdx f n l).map g = l.map g := by
  induction l generalizing n with
  | nil => cases n <;> rfl
  | cons a as ih => cases n with
    | zero => simp [modifyIdx, h]
    | succ m => simp [modifyIdx, ih]

theorem modifyIdx_map_sum {α M : Type} [AddCommMonoid M] (f : α → α) (g : α → M) (d : M)
    (hf : ∀ a, g (f a) = g a + d) (n : Nat) (l : List α) (hn : n < l.length) :
    ((modifyIdx f n l).map g).sum = (l.map g).sum + d := by
  induction l generalizing n with
  | nil => simp at hn
  | cons a as ih =>
    cases n with
    | zero =>
      simp only [modifyIdx, List.map_cons, List.sum_cons, hf]
      rw [add_right_comm]
    | succ m =>
      have hm : m < as.length := by simpa using hn
      simp only [modifyIdx, List.map_cons, List.sum_cons, ih m hm]
      rw [← add_assoc]

/-- Invariants preserved along the day-of-week bucket fold: length 7, fixed
day names, counts summing to the number of transactions folded in, and
amounts summing to their total amount. -/
theorem foldl_applyTx_stats (ts : List TaggedTx) :
    ∀ stats : List DayStat, stats.length = 7 →
      (ts.foldl applyTx stats).length = 7 ∧
        ((ts.foldl applyTx stats).map fun s => s.day) = (stats.map fun s => s.day) ∧
        ((ts.foldl applyTx stats).map fun s => s.count).sum
          = (stats.map fun s => s.count).sum + ts.length ∧
        ((ts.foldl applyTx stats).map fun s => s.amount).sum
          = (stats.map fun s => s.amount).sum + (ts.map fun t => t.amount).sum := by
  induction ts with
  | nil =>
    intro stats h
    simp [h]
  | cons t ts ih =>
    intro stats h
    have hidx : getDayOf t.date < stats.length := h ▸ getDayOf_lt t.date
    have hlen : (applyTx stats t).length = 7 := by
      rw [applyTx, modifyIdx_length, h]
    obtain ⟨ih1, ih2, ih3, ih4⟩ := ih (applyTx stats t) hlen
    refine ⟨ih1, ?_, ?_, ?_⟩
    · rw [List.foldl_cons, ih2, applyTx]
      exact modifyIdx_map_proj
        (fun s : DayStat => { s with amount := s.amount + t.amount, count := s.count + 1 })
        (fun s : DayStat => s.day) (fun a => rfl) _ _
    · rw [List.foldl_cons, ih3, applyTx,
        modifyIdx_map_sum
          (fun s : DayStat => { s with amount := s.amount + t.amount, count := s.count + 1 })
          (fun s : DayStat => s.count) 1 (fun a => rfl) _ stats hidx]
      simp only [List.length_cons]
      omega
    · rw [List.foldl_cons, ih4, applyTx,
        modifyIdx_map_sum
          (fun s : DayStat => { s with amount := s.amount + t.amount, count := s.count + 1 })
          (fun s : DayStat => s.amount) t.amount (fun a => rfl) _ stats hidx]
      simp only [List.map_cons, List.sum_cons]
      ring

theorem dayOfWeekStatsOf_facts (txs : List TaggedTx) :
    (dayOfWeekStatsOf txs).length = 7 ∧
      ((dayOfWeekStatsOf txs).map fun s => s.day) = dayNames ∧
      ((dayOfWeekStatsOf txs).map fun s => s.count).sum
        = (txs.filter fun t => decide (t.type = TxType.saved)).length ∧
      ((dayOfWeekStatsOf txs).map fun s => s.amount).sum
        = ((txs.filter fun t => decide (t.type = TxType.saved)).map fun t => t.amount).sum := by
  obtain ⟨h1, h2, h3, h4⟩ := foldl_applyTx_stats
    (txs.filter fun t => decide (t.type = TxType.saved)) initDayStats rfl
  unfold dayOfWeekStatsOf
  refine ⟨h1, ?_, ?_, ?_⟩
  · rw [h2]
    rfl
  · have hc : ((initDayStats.map fun s => s.count)).sum = 0 := rfl
    rw [h3, hc, Nat.zero_add]
  · have ha : (initDayStats.map fun s => s.amount) = [0, 0, 0, 0, 0, 0, 0] := rfl
    rw [h4, ha]
    norm_num

/-- C10: the day-of-week statistics list has exactly 7 entries in the
fixed Sunday-to-Saturday order, counts summing to the number of saved
transactions across all jars and amounts summing to the total saved
amount. -/
theorem C10_day_of_week_invariants (jars : List Jar) (now : Date) :
    (analytics jars now).dayOfWeekStats.length = 7 ∧
      ((analytics jars now).dayOfWeekStats.map fun s => s.day) = dayNames ∧
      ((analytics jars now).dayOfWeekStats.map fun s => s.count).sum = totalSavedCount jars ∧
      ((analytics jars now).dayOfWeekStats.map fun s => s.amount).sum
        = totalSavedAmounts jars := by
  obtain ⟨h1, h2, h3, h4⟩ := dayOfWeekStatsOf_facts (allTransactions jars)
  rw [analytics_dayOfWeekStats]
  refine ⟨h1, h2, ?_, ?_⟩
  · rw [h3, allTransactions_filter_length]
    rfl
  · rw [h4, allTransactions_filter_map_sum]
    rfl

instance : IsTotal TransactionRecord (fun a b => a.date ≤ b.date) :=
  ⟨fun a b => Int.le_total a.date b.date⟩

instance : IsTrans TransactionRecord (fun a b => a.date ≤ b.date) :=
  ⟨fun _ _ _ h1 h2 => le_trans h1 h2⟩

theorem jarSavedSorted_sorted (jar : Jar) :
    (jarSavedSorted jar).Sorted (fun a b => a.date ≤ b.date) :=
  List.sorted_insertionSort _ _

/-- In a date-sorted list the first element's date bounds the last
element's date. -/
theorem sorted_getD_first_last (l : List TransactionRecord)
    (hs : l.Sorted (fun a b => a.date ≤ b.date)) (hne : l ≠ []) :
    (l.getD 0 default).date ≤ (l.getD (l.length - 1) default).date := by
  induction l with
  | nil => exact absurd rfl hne
  | cons a t ih =>
    cases t with
    | nil => simp
    | cons b t2 =>
      have hpair := List.pairwise_cons.mp hs
      have hab : a.date ≤ b.date := hpair.1 b (by simp)
      have ih2 := ih hpair.2 (by simp)
      have hlen : (a :: b :: t2).length - 1 = ((b :: t2).length - 1) + 1 := by
        simp
      rw [hlen, List.getD_cons_succ, List.getD_cons_zero]
      rw [List.getD_cons_zero] at ih2
      exact le_trans hab ih2

/-- A mapped-then-filtered list is a `filterMap` when the per-element
behaviours agree. -/
theorem map_filter_eq_filterMap {α β : Type} (f : α → β) (p : β → Bool) (g : α → Option β)
    (h : ∀ a, (if p (f a) = true then some (f a) else none) = g a) (l : List α) :
    (l.map f).filter p = l.filterMap g := by
  induction l with
  | nil => rfl
  | cons a as ih =>
    rw [List.map_cons, List.filter_cons, List.filterMap_cons, ← h a]
    cases hpa : p (f a) with
    | true => simp [hpa, ih]
    | false => simp [hpa, ih]

/-- The per-jar prediction of the code agrees with the spec-side optional
prediction: the entry survives the null filter exactly when the spec
produces a value, and then the two are equal. -/
theorem jarPrediction_spec (n : Int) (jar : Jar) :
    (if (decide ((jarPrediction n jar).prediction ≠ none)) = true
      then some (jarPrediction n jar) else none) = specPrediction n jar := by
  simp only [jarPrediction, specPrediction]
  by_cases h2 : (jarSavedSorted jar).length < 2
  · simp only [if_pos h2]
    simp
  · simp only [if_neg h2]
    have hsorted : ((jarSavedSorted jar).drop
        ((jarSavedSorted jar).length - 10)).Sorted (fun a b => a.date ≤ b.date) :=
      (jarSavedSorted_sorted jar).sublist (List.drop_sublist _ _)
    have hne : (jarSavedSorted jar).drop ((jarSavedSorted jar).length - 10) ≠ [] := by
      apply List.ne_nil_of_length_pos
      rw [List.length_drop]
      omega
    have hfl := sorted_getD_first_last _ hsorted hne
    set recent := (jarSavedSorted jar).drop ((jarSavedSorted jar).length - 10) with hrec
    set fd := (recent.getD 0 default).date with hfd
    set ld := (recent.getD (recent.length - 1) default).date with hld
    have hdb : (if ld - fd = 0 then 1 else ld - fd) = max 1 (ld - fd) := by
      by_cases hz : ld - fd = 0
      · rw [if_pos hz, hz]
        decide
      · rw [if_neg hz]
        have h1 : (1 : Int) ≤ ld - fd := by omega
        exact (max_eq_right h1).symm
    rw [hdb]
    set rate := ((recent.map fun t => t.amount).sum) / ((max 1 (ld - fd) : Int) : ℚ) with hrate
    by_cases hg : 0 < jar.target - jar.saved ∧ 0 < rate
    · simp only [if_pos hg]
      have hpos : (0 : Int) < ⌈(jar.target - jar.saved) / rate⌉ :=
        Int.ceil_pos.mpr (div_pos hg.1 hg.2)
      simp [ne_of_gt hpos]
    · simp only [if_neg hg]
      simp

theorem predictionsOf_eq_spec (n : Int) (jars : List Jar) :
    predictionsOf n jars = jars.filterMap (specPrediction n) := by
  unfold predictionsOf
  exact map_filter_eq_filterMap _ _ _ (fun jar => jarPrediction_spec n jar) jars

/-- C5: a jar receives a prediction only with at least 2 saved records;
the prediction uses the last 10 saved records in chronological order, the
rate `sum / max(1, daysBetween(first, last))`, emits
`ceil(remaining / rate)` days from now exactly when `remaining > 0` and
the rate is positive, and jars without a computable prediction are
dropped from the list. -/
theorem C5_predictions_spec (jars : List Jar) (now : Date) :
    (analytics jars now).predictions = jars.filterMap (specPrediction (toRataDie now)) := by
  rw [analytics_predictions, predictionsOf_eq_spec]

/-- C9: every returned prediction has `daysToGoal ≥ 1` and a predicted
date strictly after the current time. -/
theorem C9_predictions_invariant (jars : List Jar) (now : Date) :
    ∀ pr ∈ (analytics jars now).predictions,
      (∃ d, pr.daysToGoal = some d ∧ 1 ≤ d) ∧
        ∃ t, pr.prediction = some t ∧ toRataDie now < t := by
  rw [analytics_predictions, predictionsOf_eq_spec]
  intro pr hpr
  rw [List.mem_filterMap] at hpr
  obtain ⟨jar, _, hspec⟩ := hpr
  simp only [specPrediction] at hspec
  split at hspec
  · cases hspec
  · split at hspec
    next hg =>
      obtain rfl := Option.some.inj hspec
      have hpos : (0 : Int) < ⌈(jar.target - jar.saved) / _⌉ :=
        Int.ceil_pos.mpr (div_pos hg.1 hg.2)
      refine ⟨⟨_, rfl, by omega⟩, ⟨_, rfl, by omega⟩⟩
    next hg => cases hspec

theorem jarHalf_sorted_eval : jarSavedSorted jarHalf =
    [{ id := 1, type := TxType.saved, amount := 10, date := 739890 },
     { id := 2, type := TxType.saved, amount := 10, date := 739895 }] := rfl

theorem nowSunday_rd : toRataDie nowSunday = 739900 := rfl

/-- Concrete evaluation of the predictions list for `jarHalf`: rate
(10 + 10) / 5 = 4 per day, remaining 50, `ceil(50 / 4) = 13` days. -/
theorem predictions_jarHalf_eval :
    (analytics [jarHalf] nowSunday).predictions
      = [{ jarName := "goal", prediction := some 739913, daysToGoal := some 13,
           avgPerDay := some 4 }] := by
  rw [analytics_predictions, nowSunday_rd]
  unfold predictionsOf
  have hjp : jarPrediction 739900 jarHalf
      = { jarName := "goal", prediction := some 739913, daysToGoal := some 13,
          avgPerDay := some 4 } := by
    have hceil : (⌈(25 / 2 : ℚ)⌉ : Int) = 13 := by
      rw [Int.ceil_eq_iff]
      norm_num
    simp only [jarPrediction, jarHalf_sorted_eval]
    norm_num [jarHalf, hceil]
  rw [List.map_cons, List.map_nil, hjp]
  rfl

/-- Witness for C9 at the concrete jar `jarHalf` on 2026-10-11: the sole
prediction has `daysToGoal = 13 ≥ 1` and date 739913, strictly after the
current day 739900. -/
theorem C9_predictions_invariant_witness :
    (∃ d, ({ jarName := "goal", prediction := some 739913, daysToGoal := some 13,
             avgPerDay := some 4 } : Prediction).daysToGoal = some d ∧ 1 ≤ d) ∧
      ∃ t, ({ jarName := "goal", prediction := some 739913, daysToGoal := some 13,
               avgPerDay := some 4 } : Prediction).prediction = some t
        ∧ toRataDie nowSunday < t :=
  C9_predictions_invariant [jarHalf] nowSunday _
    (by rw [predictions_jarHalf_eval]; exact List.mem_singleton.mpr rfl)

end MindfulStash


